import Mathlib

/-!
Verification of the upi request/response core (src/unnamed/part_002, mirrored
in src/mod.ts with RAPI names).  The JavaScript values, the error codec
(`errorToString` / `stringToError`), the dispatcher (`handle` with its helper
`get`), the proxy path accumulator (`proxy` / `createProxyHandler`), and the
remote handler (`createFetchHandler`) are embedded as executable Lean
definitions, and the behavioural claims about them are settled below.
-/

namespace UPI

/-! ## JavaScript value model

A JS value is undefined, null, a boolean, a number (integers suffice for the
values the claims touch), a string, a plain object (association list of own
enumerable properties, keys unique), or a function.  Function bodies live in
an external table indexed by `Nat` so that the inductive stays positive; the
table receives the `this` binding and the argument list and either returns a
value or throws. -/

inductive JSValue where
  | undefinedV
  | jsNull
  | bool (b : Bool)
  | num (n : Int)
  | str (s : String)
  | obj (fields : List (String × JSValue))
  | func (idx : Nat)

/-- A thrown/constructed Error object: `cls` is the constructor that built it
(one of the built-in Error classes), `name`/`message` the homonymous own
properties, `stack` the diagnostic trace string. -/
structure JSError where
  cls : String
  name : String
  message : String
  stack : String
deriving DecidableEq

/-- External table of function bodies: index, `this` binding, arguments. -/
abbrev FuncTable := Nat → JSValue → List JSValue → Except JSError JSValue

/-- JS truthiness of a value (`currentObject ?` in `get`). -/
def truthy : JSValue → Bool
  | .undefinedV => false
  | .jsNull => false
  | .bool b => b
  | .num n => n != 0
  | .str s => s != ""
  | .obj _ => true
  | .func _ => true

/-- Test for the absent marker (`=== undefined` / `includes(undefined)`). -/
def isUndefinedV : JSValue → Bool
  | .undefinedV => true
  | _ => false

/-- Test for undefined-or-null, the values whose member access throws. -/
def isNullish : JSValue → Bool
  | .undefinedV => true
  | .jsNull => true
  | _ => false

/-- Own-property lookup on an object's field list; absent keys read as
undefined. -/
def lookupField (fields : List (String × JSValue)) (key : String) : JSValue :=
  match fields.find? (fun kv => kv.1 = key) with
  | some kv => kv.2
  | none => .undefinedV

/-- Property read on a value that is not undefined/null.  Primitives expose
none of the properties the dispatcher ever reads, so they read as undefined
(built-in prototype members are outside the modelled object graphs). -/
def getField : JSValue → String → JSValue
  | .obj fields, key => lookupField fields key
  | _, _ => .undefinedV

/-- Member access `v[key]` including the TypeError thrown on undefined/null
bases (message as produced by V8); `fs` stands for the engine-supplied stack
of the freshly created error. -/
def readProp (fs : String) (v : JSValue) (key : String) : Except JSError JSValue :=
  match v with
  | .undefinedV => .error ⟨"TypeError", "TypeError",
      "Cannot read properties of undefined (reading \x27" ++ key ++ "\x27)", fs⟩
  | .jsNull => .error ⟨"TypeError", "TypeError",
      "Cannot read properties of null (reading \x27" ++ key ++ "\x27)", fs⟩
  | v => .ok (getField v key)

/-- `func.apply(this, args)` as used by the dispatcher: calling a function
runs its table entry; on any other non-nullish value `.apply` reads as
undefined and the call throws the engine's TypeError; on null the `.apply`
read itself throws. -/
def applyFunc (fs : String) (table : FuncTable) (v this : JSValue)
    (args : List JSValue) : Except JSError JSValue :=
  match v with
  | .func idx => table idx this args
  | .jsNull => .error ⟨"TypeError", "TypeError",
      "Cannot read properties of null (reading \x27apply\x27)", fs⟩
  | _ => .error ⟨"TypeError", "TypeError", "func.apply is not a function", fs⟩

/-- `Object.keys` on the object graphs the dispatcher walks (own enumerable
string keys of a plain object; primitives contribute none here). -/
def objectKeys : JSValue → List String
  | .obj fields => fields.map (fun kv => kv.1)
  | _ => []

/-- JS string coercion for the value forms in use (template literals,
string `+`). -/
def jsToString : JSValue → String
  | .undefinedV => "undefined"
  | .jsNull => "null"
  | .bool b => if b then "true" else "false"
  | .num n => toString n
  | .str s => s
  | .obj _ => "[object Object]"
  | .func _ => "function"

/-! ## Request / Response envelopes (source: UPIRequest / UPIResponse) -/

structure UPIRequest where
  id : String
  path : List String
  args : List JSValue

structure UPIResponse where
  id : String
  path : List String
  result : Option JSValue
  error : Option String

/-! ## Error codec (source: `errorToString`, `stringToError`)

JS `String.prototype.split` with a non-empty string separator cuts at every
non-overlapping occurrence, scanning left to right.  The two separators the
codec uses, `"\n"` and `": "`, are embedded as list-of-character splitters
below. -/

/-- Prepend a character to the first chunk of a split result. -/
def consHead (c : Char) : List (List Char) → List (List Char)
  | [] => [[c]]
  | hd :: tl => (c :: hd) :: tl

/-- `s.split('\n')` on the character list. -/
def splitNl : List Char → List (List Char)
  | [] => [[]]
  | c :: cs => if c = '\n' then [] :: splitNl cs else consHead c (splitNl cs)

/-- `s.split(': ')` on the character list (the two-character separator is cut
at every non-overlapping occurrence, left to right). -/
def splitCS : List Char → List (List Char)
  | [] => [[]]
  | [c] => [[c]]
  | c :: c' :: cs =>
    if c = ':' ∧ c' = ' ' then [] :: splitCS cs
    else consHead c (splitCS (c' :: cs))

/-- Occurrence test for the separator `": "` inside a character list. -/
def hasCS : List Char → Bool
  | [] => false
  | [_] => false
  | c :: c' :: cs => if c = ':' ∧ c' = ' ' then true else hasCS (c' :: cs)

/-- `s.split('\n')` at the string level. -/
def jsSplitNl (s : String) : List String :=
  (splitNl s.data).map String.mk

/-- `s.split(': ')` at the string level. -/
def jsSplitCS (s : String) : List String :=
  (splitCS s.data).map String.mk

/-- Source constant `ERROR_CLASSES` (names of the six catalog classes). -/
def ERROR_CLASSES : List String :=
  ["EvalError", "RangeError", "ReferenceError", "SyntaxError", "TypeError", "URIError"]

/-- Source `errorToString`: `name: message` plus the stack on further lines
when the message is truthy (non-empty), otherwise just the name. -/
def errorToString (e : JSError) : String :=
  if e.message ≠ "" then e.name ++ ": " ++ e.message ++ "\n" ++ e.stack
  else e.name

/-- Source `stringToError`: first line split at `": "` into name and message,
name matched against the catalog to pick the constructed class (plain `Error`
otherwise), remaining lines reattached as the stack.  `fs` stands for the
stack the engine gives the freshly constructed error object when the encoded
form carried no stack lines. -/
def stringToError (fs : String) (s : String) : JSError :=
  let lines := jsSplitNl s
  let nameMessage := lines.headD ""
  let stackLines := lines.tail
  let parts := jsSplitCS nameMessage
  let name := parts.headD ""
  let message? := parts[1]?
  let cls := if ERROR_CLASSES.contains name then name else "Error"
  let message :=
    match message? with
    | some m => if m ≠ "" then m else ""
    | none => ""
  let stack :=
    if stackLines.length ≠ 0 then String.intercalate "\n" stackLines else fs
  ⟨cls, name, message, stack⟩

/-! ## Dispatcher (source: `handle` and its helper `get`) -/

/-- Source `get(obj, path)`: left fold over the path, descending only through
truthy values and collapsing to undefined otherwise. -/
def get (obj : JSValue) (path : List String) : JSValue :=
  path.foldl (fun cur key => if truthy cur then getField cur key else .undefinedV) obj

/-- Truthiness of the popped final path element (`prop ?` in `handle`): the
pop of an empty array gives undefined, and the empty string is falsy. -/
def propTruthy : Option String → Bool
  | some p => p != ""
  | none => false

/-- Rendering of the popped element inside the template literal (undefined
prints as the text `undefined`). -/
def renderProp : Option String → String
  | some p => p
  | none => "undefined"

/-- The unknown-request message built by `handle`:
`Unknown request "<rest joined by .>:<prop>". \nValid = <keys joined by ,>`
(template-literal interpolation of an array joins with commas). -/
def unknownMessage (rest : List String) (prop? : Option String)
    (keys : List String) : String :=
  "Unknown request \"" ++ String.intercalate "." rest ++ ":" ++ renderProp prop?
    ++ "\". \nValid = " ++ String.intercalate "," keys

/-- The `func` computation of `handle`:
`prop ? (target = get(target, path))[prop] : undefined`, paired with the
(possibly reassigned) target it leaves behind.  The member access on the
walked-to container throws when the walk collapsed to undefined/null. -/
def resolveFunc (fs : String) (target : JSValue) (rest : List String)
    (prop? : Option String) : Except JSError (JSValue × JSValue) :=
  if propTruthy prop? then
    match readProp fs (get target rest) (prop?.getD "") with
    | .ok f => .ok (get target rest, f)
    | .error e => .error e
  else
    .ok (target, .undefinedV)

/-- Source `handle(target, request)`.  The copied path is popped into
`rest`/`prop?`; a `.error` result models an exception escaping `handle`
(the returned promise rejecting), `.ok` a resolved Response. -/
def handle (fs : String) (table : FuncTable) (target : JSValue)
    (request : UPIRequest) : Except JSError UPIResponse :=
  match resolveFunc fs target request.path.dropLast request.path.getLast? with
  | .error e => .error e
  | .ok (container, func) =>
    if isUndefinedV func then
      .ok ⟨request.id, request.path, none,
        some (errorToString ⟨"Error", "Error",
          unknownMessage request.path.dropLast request.path.getLast?
            (objectKeys container), fs⟩)⟩
    else
      match applyFunc fs table func container request.args with
      | .ok v => .ok ⟨request.id, request.path, some v, none⟩
      | .error e => .ok ⟨request.id, request.path, none, some (errorToString e)⟩

/-! ## Path proxy (source: `proxy` / `createProxyHandler`)

Each invocation of `createProxyHandler(path)` introduces one mutable closure
variable `path`; the `get` trap reassigns that shared variable
(`path = [...path, prop]`) and hands the extended array both to the returned
async function (which reads the creator's variable again at call time) and to
a fresh `createProxyHandler` scope for the returned child proxy.  The store of
those closure variables is made explicit: `PState.scopes` holds one path per
`createProxyHandler` scope, indexed by allocation order. -/

structure PState where
  scopes : List (List String)

/-- A proxy value: `funcScope` is the scope whose `path` variable the wrapped
async function reads at call time (none for the root proxy, whose target is
not callable), `prop` the property access that created it (used in the
undefined-argument error message), `handlerScope` the scope owned by its own
`createProxyHandler`. -/
structure ProxyObj where
  funcScope : Option Nat
  prop : String
  handlerScope : Nat

/-- `proxy(target, handler)`: a root proxy over a fresh empty-path scope. -/
def mkRoot : ProxyObj × PState :=
  (⟨none, "", 0⟩, ⟨[[]]⟩)

/-- The `get` trap: append `prop` to the accessed proxy's scope variable
(mutating it in place for every closure that shares it) and allocate the
child scope initialised with the extended path. -/
def proxyAccess (p : ProxyObj) (prop : String) (st : PState) :
    ProxyObj × PState :=
  let cur := st.scopes.getD p.handlerScope []
  let extended := cur ++ [prop]
  let scopes := st.scopes.set p.handlerScope extended
  (⟨some p.handlerScope, prop, scopes.length⟩, ⟨scopes ++ [extended]⟩)

/-- The async function body of the trap, up to (and excluding) the handler
call: reject argument lists containing undefined with the
`UndefinedNotAllowedError` (name `UndefinedNotAllowed`), otherwise build the
Request from the creating scope's current path.  `id` stands for the `uid()`
draw of this invocation, `fs` for the engine-supplied stack. -/
def invoke (fs id : String) (p : ProxyObj) (args : List JSValue)
    (st : PState) : Except JSError UPIRequest :=
  match p.funcScope with
  | none => .error ⟨"TypeError", "TypeError", "target is not a function", fs⟩
  | some k =>
    if args.any isUndefinedV then
      .error ⟨"UndefinedNotAllowedError", "UndefinedNotAllowed",
        p.prop ++ ": undefined not allowed, use null instead", fs⟩
    else
      .ok ⟨id, st.scopes.getD k [], args⟩

/-- The full async function body: delegate the built Request to the bound
handler, re-raise a truthy `error` through the codec, return `result`
otherwise.  The second component counts handler invocations. -/
def callProxy (fs id : String) (handler : UPIRequest → UPIResponse)
    (p : ProxyObj) (args : List JSValue) (st : PState) :
    Except JSError JSValue × Nat :=
  match invoke fs id p args st with
  | .error e => (.error e, 0)
  | .ok req =>
    let res := handler req
    match res.error with
    | some s =>
      if s ≠ "" then (.error (stringToError fs s), 1)
      else (.ok (res.result.getD .undefinedV), 1)
    | none => (.ok (res.result.getD .undefinedV), 1)

/-- One access step for folding a chain `root.p1.p2...`. -/
def accessStep (ps : ProxyObj × PState) (prop : String) : ProxyObj × PState :=
  proxyAccess ps.1 prop ps.2

/-- Build the chain of consecutive accesses `props` from a fresh root. -/
def buildChain (props : List String) : ProxyObj × PState :=
  props.foldl accessStep mkRoot

/-! ## Remote handler (source: `createFetchHandler`) and router echo
(source: `createRequestHandler`, POST branch) -/

/-- Source constant `UPI_ID_HEADER` (the mod.ts twin uses `X-RAPI-ID`). -/
def UPI_ID_HEADER : String := "X-UPI-ID"

/-- Source constant `UPI_USER_AGENT`. -/
def UPI_USER_AGENT : String := "UPI/1.0"

/-- The JSON object `JSON.stringify` serialises as the POST body: exactly the
two fields `path` and `args`. -/
structure FetchBody where
  path : List String
  args : List JSValue

/-- The outgoing HTTP request assembled by `fetchHandler`. -/
structure HttpRequestOut where
  method : String
  headers : List (String × String)
  body : FetchBody

/-- `headers.get(name)` (null for an absent header). -/
def headerGet (headers : List (String × String)) (name : String) :
    Option String :=
  (headers.find? (fun kv => kv.1 = name)).map (fun kv => kv.2)

/-- Rendering of a nullable header value inside a template literal. -/
def renderNullable : Option String → String
  | some s => s
  | none => "null"

/-- The fetch call built from a Request.  The source writes
`UPI_ID_HEADER: request.id` in the header object literal, which is the
literal property name `"UPI_ID_HEADER"` (a computed key `[UPI_ID_HEADER]`
would have produced `"X-UPI-ID"`). -/
def fetchRequestOf (request : UPIRequest) : HttpRequestOut :=
  ⟨"POST",
   [("User-Agent", UPI_USER_AGENT),
    ("Content-Type", "application/json"),
    ("UPI_ID_HEADER", request.id)],
   ⟨request.path, request.args⟩⟩

/-- The HTTP response as `fetchHandler` consumes it; `body` is the result of
`response.json()` (a parse failure throws). -/
structure HttpResponseIn where
  ok : Bool
  status : Nat
  statusText : String
  headers : List (String × String)
  body : Except JSError UPIResponse

/-- Source `fetchHandler`: POST the request, throw on a non-ok status, throw
on a correlation-header value differing from the request id (the message
names both ids), otherwise return the parsed body. -/
def fetchHandler (fs : String) (doFetch : HttpRequestOut → HttpResponseIn)
    (request : UPIRequest) : Except JSError UPIResponse :=
  let response := doFetch (fetchRequestOf request)
  if !response.ok then
    .error ⟨"Error", "Error",
      "Failed to fetch: " ++ toString response.status ++ " "
        ++ response.statusText, fs⟩
  else if headerGet response.headers UPI_ID_HEADER ≠ some request.id then
    .error ⟨"Error", "Error",
      "Invalid response: " ++ toString response.status ++ "\x7d \x7b req="
        ++ request.id ++ ", res="
        ++ renderNullable (headerGet response.headers UPI_ID_HEADER)
        ++ " \x7d", fs⟩
  else
    response.body

/-- Response headers of the router's POST branch in `createRequestHandler`:
the computed key `[UPI_ID_HEADER]` echoes the incoming `X-UPI-ID` header,
defaulting to the empty string when absent. -/
def routerPostHeaders (requestHeaders : List (String × String)) :
    List (String × String) :=
  [("Content-Type", "application/json"),
   (UPI_ID_HEADER, (headerGet requestHeaders UPI_ID_HEADER).getD "")]

/-! ## Concrete tables and targets used by scenario theorems -/

/-- A function table with no interesting entries. -/
def emptyTable : FuncTable := fun _ _ _ => .ok .undefinedV

/-- Table entry for `(name) => "Hi " + name` (string `+` coerces). -/
def greetTable : FuncTable := fun _ _ args =>
  .ok (.str ("Hi " ++ jsToString (args.headD .undefinedV)))

/-- The target `{ greet: (name) => "Hi " + name }`. -/
def greetTarget : JSValue := .obj [("greet", .func 0)]

/-- Prefix test for character lists (used by `containsSeq`). -/
def beginsWith : List Char → List Char → Bool
  | [], _ => true
  | _ :: _, [] => false
  | p :: ps, c :: cs => if p = c then beginsWith ps cs else false

/-- Substring occurrence test (pattern, text), used to state whether an error
message carries the member-name enumeration. -/
def containsSeq (pat : List Char) : List Char → Bool
  | [] => beginsWith pat []
  | c :: cs => if beginsWith pat (c :: cs) then true else containsSeq pat cs

/-- A handler stub that reports a successful void Response. -/
def handlerW : UPIRequest → UPIResponse := fun r => ⟨r.id, r.path, none, none⟩

/-- A fetch stub answering status 200 with correlation header value `"4"`. -/
def mismatchFetch : HttpRequestOut → HttpResponseIn := fun _ =>
  ⟨true, 200, "OK", [(UPI_ID_HEADER, "4")], .ok ⟨"4", [], none, none⟩⟩

/-! ## Split lemmas for the error codec -/

lemma data_append (a b : String) : (a ++ b).data = a.data ++ b.data := by
  cases a; cases b; rfl

lemma mk_data (s : String) : String.mk s.data = s := by
  cases s; rfl

lemma data_mk (l : List Char) : (String.mk l).data = l := rfl

lemma splitNl_ne_nil (l : List Char) : splitNl l ≠ [] := by
  cases l with
  | nil => simp [splitNl]
  | cons c cs =>
    simp only [splitNl]
    split
    · simp
    · cases splitNl cs <;> simp [consHead]

lemma splitNl_cons_ne (c : Char) (l : List Char) (h : c ≠ '\n') :
    splitNl (c :: l) = consHead c (splitNl l) := by
  simp [splitNl, h]

lemma splitNl_append (xs ys : List Char) (h : '\n' ∉ xs) :
    splitNl (xs ++ ys) = (xs ++ (splitNl ys).headD []) :: (splitNl ys).tail := by
  induction xs with
  | nil =>
    cases hy : splitNl ys with
    | nil => exact absurd hy (splitNl_ne_nil ys)
    | cons a t => simp [hy]
  | cons c cs ih =>
    rw [List.mem_cons, not_or] at h
    obtain ⟨hc, h'⟩ := h
    rw [List.cons_append, splitNl_cons_ne c _ (fun hh => hc hh.symm), ih h']
    rfl

lemma splitNl_single (xs : List Char) (h : '\n' ∉ xs) : splitNl xs = [xs] := by
  have h0 := splitNl_append xs [] h
  simpa [splitNl] using h0

lemma splitCS_ne_nil (l : List Char) : splitCS l ≠ [] := by
  match l with
  | [] => simp [splitCS]
  | [c] => simp [splitCS]
  | c :: c' :: cs =>
    simp only [splitCS]
    split
    · simp
    · cases splitCS (c' :: cs) <;> simp [consHead]

lemma splitCS_cons (c : Char) (l : List Char)
    (h : c = ':' → l.head? ≠ some ' ') :
    splitCS (c :: l) = consHead c (splitCS l) := by
  match l with
  | [] => rfl
  | c' :: cs =>
    have hn : ¬(c = ':' ∧ c' = ' ') := by
      rintro ⟨h1, h2⟩
      exact h h1 (by simp [h2])
    simp only [splitCS, if_neg hn]

lemma splitCS_append (xs ys : List Char) (h : ':' ∉ xs) :
    splitCS (xs ++ ys) = (xs ++ (splitCS ys).headD []) :: (splitCS ys).tail := by
  induction xs with
  | nil =>
    cases hy : splitCS ys with
    | nil => exact absurd hy (splitCS_ne_nil ys)
    | cons a t => simp [hy]
  | cons c cs ih =>
    rw [List.mem_cons, not_or] at h
    obtain ⟨hc, h'⟩ := h
    rw [List.cons_append, splitCS_cons c _ (fun hh => absurd hh.symm hc), ih h']
    rfl

lemma splitCS_no_colon (xs : List Char) (h : ':' ∉ xs) : splitCS xs = [xs] := by
  have h0 := splitCS_append xs [] h
  simpa [splitCS] using h0

lemma splitCS_single : ∀ xs : List Char, hasCS xs = false → splitCS xs = [xs]
  | [], _ => rfl
  | [_], _ => rfl
  | c :: c' :: cs, h => by
    simp only [hasCS] at h
    split at h
    · exact absurd h (by simp)
    · next hn =>
      rw [splitCS, if_neg hn, splitCS_single (c' :: cs) h]
      rfl

/-- Core round-trip computation: decoding an encoded error recovers the name
(hence the matched class) whenever the name contains no colon and no newline,
and recovers the message verbatim whenever the message additionally contains
neither a newline nor the separator `": "`. -/
lemma decode_encode_core (fs : String) (e : JSError)
    (hcol : ':' ∉ e.name.data) (hnl : '\n' ∉ e.name.data) :
    (stringToError fs (errorToString e)).cls
        = (if ERROR_CLASSES.contains e.name then e.name else "Error") ∧
    ('\n' ∉ e.message.data → hasCS e.message.data = false →
      (stringToError fs (errorToString e)).message = e.message) := by
  by_cases hm : e.message = ""
  · have hs : errorToString e = e.name := by
      rw [errorToString, if_neg (by simp [hm])]
    have hjsnl : jsSplitNl (errorToString e) = [e.name] := by
      rw [hs, jsSplitNl, splitNl_single _ hnl]
      simp [mk_data]
    have hjcs : jsSplitCS e.name = [e.name] := by
      rw [jsSplitCS, splitCS_no_colon _ hcol]
      simp [mk_data]
    constructor
    · rw [stringToError]
      simp only [hjsnl, List.headD_cons, hjcs]
    · intro _ _
      rw [stringToError]
      simp only [hjsnl, List.headD_cons, hjcs]
      simp [hm]
  · have hsdata : (errorToString e).data
        = e.name.data ++ ':' :: ' ' :: (e.message.data ++ '\n' :: e.stack.data) := by
      rw [errorToString, if_pos hm]
      simp only [data_append]
      simp [List.append_assoc]
    obtain ⟨qh, qt, hq⟩ :
        ∃ qh qt, splitNl (e.message.data ++ '\n' :: e.stack.data) = qh :: qt := by
      cases hq : splitNl (e.message.data ++ '\n' :: e.stack.data) with
      | nil => exact absurd hq (splitNl_ne_nil _)
      | cons a t => exact ⟨a, t, rfl⟩
    have hlines : splitNl (errorToString e).data
        = (e.name.data ++ ':' :: ' ' :: qh) :: qt := by
      rw [hsdata, splitNl_append _ _ hnl,
        splitNl_cons_ne ':' _ (by decide), splitNl_cons_ne ' ' _ (by decide), hq]
      rfl
    have hparts : splitCS (e.name.data ++ ':' :: ' ' :: qh)
        = e.name.data :: splitCS qh := by
      have hmid : splitCS (':' :: ' ' :: qh) = [] :: splitCS qh := by
        rw [splitCS, if_pos ⟨rfl, rfl⟩]
      rw [splitCS_append _ _ hcol, hmid]
      simp
    have hjsnl : jsSplitNl (errorToString e)
        = String.mk (e.name.data ++ ':' :: ' ' :: qh) :: qt.map String.mk := by
      rw [jsSplitNl, hlines]
      rfl
    have hjcs : jsSplitCS (String.mk (e.name.data ++ ':' :: ' ' :: qh))
        = e.name :: (splitCS qh).map String.mk := by
      rw [jsSplitCS, data_mk, hparts]
      simp [mk_data]
    constructor
    · rw [stringToError]
      simp only [hjsnl, List.headD_cons, List.tail_cons, hjcs]
    · intro hmn hmc
      have hqh : qh = e.message.data := by
        have h2 : splitNl (e.message.data ++ '\n' :: e.stack.data)
            = e.message.data :: splitNl e.stack.data := by
          rw [splitNl_append _ _ hmn]
          simp [splitNl]
        rw [hq] at h2
        exact (List.cons.injEq _ _ _ _ ▸ h2).1
      have hsplit : splitCS qh = [e.message.data] := by
        rw [hqh, splitCS_single _ hmc]
      rw [stringToError]
      simp only [hjsnl, List.headD_cons, List.tail_cons, hjcs, hsplit]
      simp [mk_data, hm]

/-! ## Claims -/

/-- Claim C2 (corrected), counterexample: the codec does not preserve messages
verbatim.  Encoding the catalog-kind failure with message `a: b` and decoding
yields the message `a`: the decoder destructures the first two pieces of the
JS split at every `": "`, truncating the message at its first internal
separator. -/
theorem codec_message_truncated_counterexample :
    (stringToError "" (errorToString ⟨"TypeError", "TypeError", "a: b", "s"⟩)).cls
        = "TypeError" ∧
    (stringToError "" (errorToString ⟨"TypeError", "TypeError", "a: b", "s"⟩)).message
        ≠ "a: b" := by
  constructor
  · decide
  · decide

/-- Claim C2 (corrected, amended): encoding with `errorToString` and decoding
with `stringToError` preserves the kind (the constructed class) for every
failure whose kind name is one of the six catalog kinds, for every message;
the message is preserved verbatim whenever it contains neither a newline nor
the separator `": "`. -/
theorem codec_round_trip (fs : String) (e : JSError)
    (hk : e.name ∈ ERROR_CLASSES) :
    (stringToError fs (errorToString e)).cls = e.name ∧
    ('\n' ∉ e.message.data → hasCS e.message.data = false →
      (stringToError fs (errorToString e)).message = e.message) := by
  have hns : ':' ∉ e.name.data ∧ '\n' ∉ e.name.data
      ∧ ERROR_CLASSES.contains e.name = true := by
    simp only [ERROR_CLASSES, List.mem_cons, List.not_mem_nil, or_false] at hk
    rcases hk with h | h | h | h | h | h <;> rw [h] <;>
      exact ⟨by decide, by decide, by decide⟩
  obtain ⟨h1, h2, h3⟩ := hns
  obtain ⟨hcls, hmsg⟩ := decode_encode_core fs e h1 h2
  rw [h3] at hcls
  exact ⟨by simpa using hcls, hmsg⟩

/-- Claim C2 witness: a concrete catalog-kind failure whose message round-trips. -/
theorem codec_round_trip_witness :
    (stringToError "x" (errorToString ⟨"TypeError", "TypeError", "boom", "st"⟩)).cls
        = "TypeError" ∧
    (stringToError "x" (errorToString ⟨"TypeError", "TypeError", "boom", "st"⟩)).message
        = "boom" :=
  ⟨(codec_round_trip "x" ⟨"TypeError", "TypeError", "boom", "st"⟩ (by decide)).1,
   (codec_round_trip "x" ⟨"TypeError", "TypeError", "boom", "st"⟩ (by decide)).2
     (by decide) (by decide)⟩

/-- Claim C3 (code_bug): on a Request whose path has an absent intermediate
element, `handle` does not return an error Response: `get` collapses the walk
to undefined and the subsequent member access
`(target = get(target, path))[prop]` throws a TypeError outside the
try/catch, so the exception escapes `handle` (the promise rejects).  Here:
target `{}`, request `{id:"1", path:["x","y"], args:[]}`. -/
theorem dispatcher_absent_intermediate_throws :
    handle "" emptyTable (.obj []) ⟨"1", ["x", "y"], []⟩ =
      .error ⟨"TypeError", "TypeError",
        "Cannot read properties of undefined (reading \x27y\x27)", ""⟩ := rfl

/-- Claim C6 (code_bug): the fetch handler's POST body is exactly
`{path, args}` with no id, but the id does not travel under the fixed
correlation header `X-UPI-ID`: the header object literal uses the literal key
`"UPI_ID_HEADER"`, so the router (which echoes the computed key `X-UPI-ID`)
echoes the empty string. -/
theorem fetch_header_literal_key :
    (fetchRequestOf ⟨"7", ["f"], []⟩).body = ⟨["f"], []⟩ ∧
    headerGet (fetchRequestOf ⟨"7", ["f"], []⟩).headers "UPI_ID_HEADER"
        = some "7" ∧
    headerGet (fetchRequestOf ⟨"7", ["f"], []⟩).headers UPI_ID_HEADER = none ∧
    headerGet (routerPostHeaders (fetchRequestOf ⟨"7", ["f"], []⟩).headers)
        UPI_ID_HEADER = some "" := by
  refine ⟨rfl, rfl, by decide, by decide⟩

/-- Claim C9: the greeting scenario.  For the target
`{ greet: (name) => "Hi " + name }` and the Request
`{id:"1", path:["greet"], args:["Ada"]}`, `handle` returns
`{id:"1", path:["greet"], result:"Hi Ada"}` with no error set. -/
theorem dispatcher_greet_scenario :
    handle "" greetTable greetTarget ⟨"1", ["greet"], [.str "Ada"]⟩ =
      .ok ⟨"1", ["greet"], some (.str "Hi Ada"), none⟩ := rfl

/-! ## List bookkeeping for the proxy scope store -/

lemma getD_append_len {α : Type} (L : List α) (x : α) (ys : List α) (d : α) :
    (L ++ x :: ys).getD L.length d = x := by
  induction L with
  | nil => rfl
  | cons a L ih => simpa using ih

lemma set_append_len {α : Type} (L : List α) (y : α) (ys : List α) (v : α) :
    (L ++ y :: ys).set L.length v = L ++ v :: ys := by
  induction L with
  | nil => rfl
  | cons a L ih => simp [ih]

/-- Folding a chain of consecutive accesses from a proxy whose handler scope
is the last slot of the store: the final proxy's function reads a scope whose
current path is the accumulated path extended by the whole chain. -/
lemma chain_fold (rest : List String) : rest ≠ [] →
    ∀ (L : List (List String)) (acc : List String) (f : Option Nat) (pr : String),
    ∃ k,
      (rest.foldl accessStep (⟨f, pr, L.length⟩, ⟨L ++ [acc]⟩)).1.funcScope = some k ∧
      (rest.foldl accessStep (⟨f, pr, L.length⟩, ⟨L ++ [acc]⟩)).2.scopes.getD k []
        = acc ++ rest := by
  induction rest with
  | nil => intro h; exact absurd rfl h
  | cons p rest' ih =>
    intro _ L acc f pr
    have hstep : accessStep (⟨f, pr, L.length⟩, ⟨L ++ [acc]⟩) p
        = (⟨some L.length, p, (L ++ [acc ++ [p]]).length⟩,
           ⟨(L ++ [acc ++ [p]]) ++ [acc ++ [p]]⟩) := by
      simp only [accessStep, proxyAccess]
      rw [getD_append_len L acc [] [], set_append_len L acc [] (acc ++ [p])]
    cases rest' with
    | nil =>
      refine ⟨L.length, ?_, ?_⟩
      · simp [List.foldl, hstep]
      · simp only [List.foldl, hstep]
        rw [List.append_assoc]
        exact getD_append_len L _ _ []
    | cons q rest'' =>
      obtain ⟨k, hk1, hk2⟩ :=
        ih (by simp) (L ++ [acc ++ [p]]) (acc ++ [p]) (some L.length) p
      refine ⟨k, ?_, ?_⟩
      · rw [List.foldl_cons, hstep]
        exact hk1
      · rw [List.foldl_cons, hstep, List.append_cons acc p (q :: rest'')]
        exact hk2

/-- Claim C1 (corrected, amended): invoking a chain of consecutive accesses
`P` built from a fresh root proxy, with an argument list `A` free of
undefined, builds exactly one Request with `path = P` and `args = A` before
the bound handler runs.  (The isolation half of the original claim is false:
see the sibling-access counterexample — the `get` trap mutates the closure
`path` shared with every function previously created from the same scope.) -/
theorem proxy_chain_request (fs id : String) (props : List String)
    (args : List JSValue) (hne : props ≠ [])
    (hargs : args.any isUndefinedV = false) :
    invoke fs id (buildChain props).1 args (buildChain props).2
      = .ok ⟨id, props, args⟩ := by
  obtain ⟨k, hk1, hk2⟩ := chain_fold props hne [] [] none ""
  have hk1' : (buildChain props).1.funcScope = some k := hk1
  have hk2' : (buildChain props).2.scopes.getD k [] = props := hk2
  rw [invoke, hk1']
  simp only [hargs, Bool.false_eq_true, if_false]
  rw [hk2']

/-- Claim C1 witness: the two-element chain with one string argument. -/
theorem proxy_chain_request_witness :
    invoke "" "w1" (buildChain ["a", "b"]).1 [.str "x"] (buildChain ["a", "b"]).2
      = .ok ⟨"w1", ["a", "b"], [.str "x"]⟩ :=
  proxy_chain_request "" "w1" ["a", "b"] [.str "x"] (by decide) rfl

/-- Claim C1 (corrected), counterexample: paths are not isolated between
chains sharing the root.  After `root.a` and then `root.b`, invoking the
function obtained from `root.a` builds a Request whose path is
`["a","b"]`, not `["a"]`: the second access mutated the root scope's path
variable, which the first function still reads at call time. -/
theorem proxy_sibling_access_counterexample :
    invoke "" "id1" (proxyAccess mkRoot.1 "a" mkRoot.2).1 []
        (proxyAccess mkRoot.1 "b" (proxyAccess mkRoot.1 "a" mkRoot.2).2).2
      = .ok ⟨"id1", ["a", "b"], []⟩ ∧ (["a", "b"] : List String) ≠ ["a"] :=
  ⟨rfl, by decide⟩

/-- Claim C8: a proxy invocation whose arguments contain undefined fails
immediately and locally with the `UndefinedNotAllowed` error, before any
Request is constructed, with zero invocations of the bound handler. -/
theorem proxy_undefined_arg_rejected (fs id : String)
    (handler : UPIRequest → UPIResponse) (p : ProxyObj) (args : List JSValue)
    (st : PState) (k : Nat) (hf : p.funcScope = some k)
    (hu : args.any isUndefinedV = true) :
    callProxy fs id handler p args st =
      (.error ⟨"UndefinedNotAllowedError", "UndefinedNotAllowed",
        p.prop ++ ": undefined not allowed, use null instead", fs⟩, 0) := by
  rw [callProxy, invoke, hf]
  simp [hu]

/-- Claim C8 witness: calling the chain `root.m` with `[undefined]`. -/
theorem proxy_undefined_arg_rejected_witness :
    callProxy "" "w2" handlerW (buildChain ["m"]).1 [.undefinedV] (buildChain ["m"]).2
      = (.error ⟨"UndefinedNotAllowedError", "UndefinedNotAllowed",
          "m: undefined not allowed, use null instead", ""⟩, 0) :=
  proxy_undefined_arg_rejected "" "w2" handlerW (buildChain ["m"]).1 [.undefinedV]
    (buildChain ["m"]).2 0 rfl rfl

/-- Claim C4 (corrected, amended): when the nonempty final path element `m`
reads as undefined on the non-nullish container reached by the walk, `handle`
returns an error Response (generic kind `Error`) whose message enumerates the
member names currently available on the container. -/
theorem dispatcher_unknown_member_lists_keys (fs : String) (table : FuncTable)
    (target container : JSValue) (req : UPIRequest) (m : String)
    (rest : List String) (hpath : req.path = rest ++ [m]) (hm : m ≠ "")
    (hc : get target rest = container)
    (hnn : isNullish container = false)
    (hund : getField container m = .undefinedV) :
    handle fs table target req =
      .ok ⟨req.id, req.path, none,
        some (errorToString ⟨"Error", "Error",
          unknownMessage rest (some m) (objectKeys container), fs⟩)⟩ := by
  have hdrop : req.path.dropLast = rest := by rw [hpath, List.dropLast_concat]
  have hlast : req.path.getLast? = some m := by rw [hpath, List.getLast?_concat]
  have hread : readProp fs container m = .ok .undefinedV := by
    cases container <;> simp_all [readProp, isNullish]
  have hpt : propTruthy (some m) = true := by simp [propTruthy, hm]
  rw [handle, resolveFunc, hdrop, hlast, hc]
  simp [hpt, hread, isUndefinedV]

/-- Claim C4 witness: target `{a: 1}`, request for the absent member
`missing`. -/
theorem dispatcher_unknown_member_lists_keys_witness :
    handle "" emptyTable (.obj [("a", .num 1)]) ⟨"9", ["missing"], []⟩ =
      .ok ⟨"9", ["missing"], none,
        some (errorToString ⟨"Error", "Error",
          unknownMessage [] (some "missing")
            (objectKeys (.obj [("a", .num 1)])), ""⟩)⟩ :=
  dispatcher_unknown_member_lists_keys "" emptyTable (.obj [("a", .num 1)])
    (.obj [("a", .num 1)]) ⟨"9", ["missing"], []⟩ "missing" [] rfl (by decide)
    rfl rfl rfl

/-- Claim C4 (corrected), counterexample: a final element that resolves to a
defined non-function value does not produce the member-enumerating
UnknownMethod Response the claim promises.  For target `{m: 5}` the
dispatcher reaches `func.apply` inside the try block, the call throws, and
the Response carries the encoded TypeError with no member listing (no
`Valid` enumeration marker occurs in it). -/
theorem dispatcher_nonfunction_counterexample :
    handle "" emptyTable (.obj [("m", .num 5)]) ⟨"1", ["m"], []⟩ =
      .ok ⟨"1", ["m"], none,
        some "TypeError: func.apply is not a function\n"⟩ ∧
    containsSeq "Valid".data
      "TypeError: func.apply is not a function\n".data = false :=
  ⟨rfl, by decide⟩

/-- Claim C5: a Request resolving to an invocable function yields a Response
echoing id and path unmodified, with exactly one of result/error set: the
returned value on normal return, the codec-encoded failure when the method
throws — the thrown failure never escapes `handle`. -/
theorem dispatcher_function_response (fs : String) (table : FuncTable)
    (target container : JSValue) (req : UPIRequest) (m : String)
    (rest : List String) (idx : Nat)
    (hpath : req.path = rest ++ [m]) (hm : m ≠ "")
    (hc : get target rest = container)
    (hnn : isNullish container = false)
    (hf : getField container m = .func idx) :
    (∀ v, table idx container req.args = .ok v →
      handle fs table target req = .ok ⟨req.id, req.path, some v, none⟩) ∧
    (∀ e, table idx container req.args = .error e →
      handle fs table target req
        = .ok ⟨req.id, req.path, none, some (errorToString e)⟩) := by
  have hdrop : req.path.dropLast = rest := by rw [hpath, List.dropLast_concat]
  have hlast : req.path.getLast? = some m := by rw [hpath, List.getLast?_concat]
  have hread : readProp fs container m = .ok (.func idx) := by
    cases container <;> simp_all [readProp, isNullish]
  have hpt : propTruthy (some m) = true := by simp [propTruthy, hm]
  constructor
  · intro v hv
    rw [handle, resolveFunc, hdrop, hlast, hc]
    simp [hpt, hread, isUndefinedV, applyFunc, hv]
  · intro e he
    rw [handle, resolveFunc, hdrop, hlast, hc]
    simp [hpt, hread, isUndefinedV, applyFunc, he]

/-- Claim C5 witness: the greet function on its target. -/
theorem dispatcher_function_response_witness :
    handle "" greetTable greetTarget ⟨"5", ["greet"], [.str "Bob"]⟩ =
      .ok ⟨"5", ["greet"], some (.str "Hi Bob"), none⟩ :=
  (dispatcher_function_response "" greetTable greetTarget greetTarget
    ⟨"5", ["greet"], [.str "Bob"]⟩ "greet" [] 0 rfl (by decide) rfl rfl rfl).1
    (.str "Hi Bob") rfl

/-- Claim C7: when the response's correlation header differs from the Request
id, the fetch handler always throws an error naming both ids (the spec's
ProtocolViolation class) and never returns the body, however well-formed. -/
theorem fetch_correlation_mismatch (fs : String)
    (doFetch : HttpRequestOut → HttpResponseIn) (request : UPIRequest)
    (hok : (doFetch (fetchRequestOf request)).ok = true)
    (hmis : headerGet (doFetch (fetchRequestOf request)).headers UPI_ID_HEADER
      ≠ some request.id) :
    fetchHandler fs doFetch request =
      .error ⟨"Error", "Error",
        "Invalid response: "
          ++ toString (doFetch (fetchRequestOf request)).status
          ++ "\x7d \x7b req=" ++ request.id ++ ", res="
          ++ renderNullable
            (headerGet (doFetch (fetchRequestOf request)).headers UPI_ID_HEADER)
          ++ " \x7d", fs⟩ := by
  rw [fetchHandler]
  simp [hok, hmis]

/-- Claim C7 witness: request id `3` against a response echoing `4`. -/
theorem fetch_correlation_mismatch_witness :
    fetchHandler "" mismatchFetch ⟨"3", ["f"], []⟩ =
      .error ⟨"Error", "Error",
        "Invalid response: 200\x7d \x7b req=3, res=4 \x7d", ""⟩ :=
  fetch_correlation_mismatch "" mismatchFetch ⟨"3", ["f"], []⟩ rfl (by decide)

/-- Claim C10: `handle` works on a copy of the Request's path (the embedding
of `[...request.path]` popped into `dropLast`/`getLast?`), and every Response
it resolves to echoes the original path sequence unmodified. -/
theorem dispatcher_echoes_path (fs : String) (table : FuncTable)
    (target : JSValue) (req : UPIRequest) (resp : UPIResponse)
    (h : handle fs table target req = .ok resp) :
    resp.path = req.path := by
  unfold handle at h
  split at h
  · simp at h
  · split at h
    · injection h with h2
      subst h2
      rfl
    · split at h
      · injection h with h2
        subst h2
        rfl
      · injection h with h2
        subst h2
        rfl

/-- Claim C10 witness: the greet scenario's Response echoes the path. -/
theorem dispatcher_echoes_path_witness :
    (⟨"1", ["greet"], some (.str "Hi Ada"), none⟩ : UPIResponse).path
      = ["greet"] :=
  dispatcher_echoes_path "" greetTable greetTarget
    ⟨"1", ["greet"], [.str "Ada"]⟩
    ⟨"1", ["greet"], some (.str "Hi Ada"), none⟩ rfl

end UPI
